import Mathlib

/-!
Verification development for the e-commerce sales-analytics engine
(`sales_analyzer.py`, class `SalesAnalyzer`).

The engine is a set of deterministic transformations over one loaded
tabular dataset.  We shallowly embed the analytic methods as Lean
functions over a typed row model:

* the loaded table is a `List Row`; an unloaded state is `none`;
* pandas `groupby(key)` is modeled as: sort the deduplicated keys
  ascending, then aggregate the fiber of each key (pandas sorts group
  keys by default);
* monetary amounts (`单价`, `总价`) and quantities are modeled as exact
  integers; the discount rate (a decimal in (0,1]) is modeled in
  hundredths (0.95 ↦ 95), so `折扣率 < 1.0` becomes `discountRate < 100`;
  derived real-valued quantities (means, regression fits, medians) are
  modeled in `ℚ`;
* Python `raise ValueError(msg)` is `Except.error msg`; a method that
  `return None`s instead of raising yields `Option`;
* external numeric back ends (sklearn `StandardScaler`+`KMeans`,
  statsmodels `ExponentialSmoothing.fit`, Prophet) are opaque
  deterministic functions taken as explicit parameters; everything the
  engine itself computes is embedded.

Column-name mapping used throughout (source column → Lean field):
订单ID→orderId, 日期→date, 年→year, 月→month, 日→day, 季度→quarter,
商品类别→category, 子类别→subcategory, 商品名称→productName, 单价→unitPrice,
数量→quantity, 折扣率→discountRate, 总价→totalPrice, 顾客ID→customerId,
顾客姓名→customerName, 省份→province, 城市→city, 地址→address, 店铺→store,
评分→rating, 支付方式→paymentMethod, 配送时间(天)→deliveryDays,
有折扣→hasDiscount, 购物节→festival, 折扣区间→discountBin.
-/

namespace Commerce

/-- Lexicographic comparison of strings as code-point lists (the order
pandas uses when sorting string group keys).  Structural so the kernel
can evaluate it, unlike `String.lt`. -/
def charsLe : List Char → List Char → Bool
  | [], _ => true
  | _ :: _, [] => false
  | a :: as, b :: bs =>
    if a.toNat < b.toNat then true
    else if b.toNat < a.toNat then false
    else charsLe as bs

/-- `s ≤ t` on strings, by code points. -/
def strLe (s t : String) : Bool := charsLe s.data t.data

/-- Insert `x` into `l` before the first element `y` with `le x y`.
Folding this over a list is a stable insertion sort. -/
def insertLe (le : α → α → Bool) (x : α) : List α → List α
  | [] => [x]
  | y :: ys => if le x y then x :: y :: ys else y :: insertLe le x ys

/-- Stable insertion sort: earlier input elements come before equal later
ones.  Models the sorted key order of pandas `groupby` and the stable
regime of `numpy` argsort. -/
def sortAsc (le : α → α → Bool) : List α → List α
  | [] => []
  | x :: xs => insertLe le x (sortAsc le xs)

/-- The rows of `l` whose key is `k` (one pandas group). -/
def fiber [DecidableEq κ] (f : α → κ) (l : List α) (k : κ) : List α :=
  l.filter (fun a => decide (f a = k))

/-- The distinct keys of `l` in ascending order — the index of a pandas
`groupby(f)` result. -/
def groupKeys [DecidableEq κ] (le : κ → κ → Bool) (f : α → κ) (l : List α) :
    List κ :=
  sortAsc le (l.map f).dedup

/-- `groupby(f)[v].sum()`: per-key integer sums, keys ascending. -/
def groupSums [DecidableEq κ] (le : κ → κ → Bool) (f : α → κ) (v : α → ℤ)
    (l : List α) : List (κ × ℤ) :=
  (groupKeys le f l).map (fun k => (k, ((fiber f l k).map v).sum))

/-- pandas `Series.median()`: sort, take the middle element (odd length)
or the mean of the two middle elements (even length). -/
def median (l : List ℚ) : ℚ :=
  let s := sortAsc (fun a b => decide (a ≤ b)) l
  if s.length = 0 then 0
  else if s.length % 2 = 1 then s.getD (s.length / 2) 0
  else (s.getD (s.length / 2 - 1) 0 + s.getD (s.length / 2) 0) / 2

/-- A calendar date (the parsed `日期` column). -/
structure Date where
  y : ℕ
  m : ℕ
  d : ℕ
deriving DecidableEq, Repr

/-- Total order on dates used when pandas sorts or compares datetimes. -/
def dateLe (a b : Date) : Bool :=
  if a.y ≠ b.y then a.y < b.y
  else if a.m ≠ b.m then a.m < b.m
  else a.d ≤ b.d

/-- Days since the civil epoch 1970-01-01 (Hinnant's `days_from_civil`);
models subtraction of pandas datetimes in whole days (`.dt.days`). -/
def Date.toDays (dt : Date) : ℤ :=
  let y : ℤ := (dt.y : ℤ) - (if dt.m ≤ 2 then 1 else 0)
  let era : ℤ := y.fdiv 400
  let yoe : ℤ := y - era * 400
  let mp : ℤ := ((dt.m : ℤ) + 9) % 12
  let doy : ℤ := (153 * mp + 2).fdiv 5 + (dt.d : ℤ) - 1
  let doe : ℤ := yoe * 365 + yoe.fdiv 4 - yoe.fdiv 100 + doy
  era * 146097 + doe - 719468

/-- One row of the loaded table (schema produced by the dataset
generator; see the column mapping in the file header).  The three
trailing `Option` fields model derived columns that some operations
write into the shared table; `none` means the column slot has not been
written for this row. -/
structure Row where
  orderId : String
  date : Date
  year : ℕ
  month : ℕ
  day : ℕ
  quarter : ℕ
  category : String
  subcategory : String
  productName : String
  unitPrice : ℤ
  quantity : ℤ
  discountRate : ℤ
  totalPrice : ℤ
  customerId : String
  customerName : String
  province : String
  city : String
  address : String
  store : String
  rating : ℕ
  paymentMethod : String
  deliveryDays : ℕ
  hasDiscount : Option Bool := none
  festival : Option String := none
  discountBin : Option String := none
deriving DecidableEq, Repr

/-- Zero-padded two-digit print (the `:02d` format spec). -/
def pad2 (n : ℕ) : String := if n < 10 then "0" ++ toString n else toString n

/-- Bucket label `f"{year}-{month:02d}"` (also `strftime %Y-%m`). -/
def fmtYM (p : ℕ × ℕ) : String := toString p.1 ++ "-" ++ pad2 p.2

/-- Bucket label `strftime %Y-%m-%d`. -/
def fmtYMD (dt : Date) : String := fmtYM (dt.y, dt.m) ++ "-" ++ pad2 dt.d

/-- Bucket label `f"{year}-Q{quarter}"`. -/
def fmtYQ (p : ℕ × ℤ) : String := toString p.1 ++ "-Q" ++ toString p.2

/-- Python `(month - 1) // 3 + 1` (floor division on possibly negative
values, hence `Int.fdiv`), as computed at `sales_analyzer.py:108`. -/
def quarterOfMonth (m : ℕ) : ℤ := ((m : ℤ) - 1).fdiv 3 + 1

/-- Ascending order on `(年, 月)` group keys. -/
def ymLe (a b : ℕ × ℕ) : Bool :=
  if a.1 ≠ b.1 then a.1 < b.1 else a.2 ≤ b.2

/-- Ascending order on `(年, 季度)` group keys. -/
def yqLe (a b : ℕ × ℤ) : Bool :=
  if a.1 ≠ b.1 then a.1 < b.1 else a.2 ≤ b.2

/-- The optional category filter `data[data['商品类别'] == category]`
applied by several operations. -/
def filterCategory (category : Option String) (rows : List Row) : List Row :=
  match category with
  | none => rows
  | some c => rows.filter (fun r => r.category == c)

/-- The grouping step of `get_sales_by_time` (`sales_analyzer.py:118-140`):
derive 年/月/季度 from the (already parsed) date column, group by the
chosen granularity, sum `总价`, and render the `时间` label.  All
`ValueError`s raised inside the `try` block — including the
unsupported-unit error and the empty-result error — are re-raised
wrapped in the `数据处理过程中出错` message. -/
def salesByTimeGrouped (rows : List Row) (time_unit : String) :
    Except String (List (String × ℤ)) :=
  let check : List (String × ℤ) → Except String (List (String × ℤ)) :=
    fun g =>
      if g.length = 0 then .error "数据处理过程中出错: 分组后的数据集为空" else .ok g
  if time_unit = "日" then
    check ((groupSums dateLe (fun r => r.date) (fun r => r.totalPrice) rows).map
      (fun p => (fmtYMD p.1, p.2)))
  else if time_unit = "月" then
    check ((groupSums ymLe (fun r => (r.date.y, r.date.m)) (fun r => r.totalPrice) rows).map
      (fun p => (fmtYM p.1, p.2)))
  else if time_unit = "季度" then
    check ((groupSums yqLe (fun r => (r.date.y, quarterOfMonth r.date.m))
        (fun r => r.totalPrice) rows).map
      (fun p => (fmtYQ p.1, p.2)))
  else if time_unit = "年" then
    check ((groupSums (fun a b => decide (a ≤ b)) (fun r => r.date.y)
        (fun r => r.totalPrice) rows).map
      (fun p => (toString p.1, p.2)))
  else .error ("数据处理过程中出错: 不支持的时间单位: " ++ time_unit)

/-- `get_sales_by_time(time_unit, category)` (`sales_analyzer.py:76-140`).
Operates on a copy of the loaded table; raises when no data is loaded,
when the table (or the category-filtered table) is empty, or when the
category does not occur.  The required-column check at lines 92-95
always passes in this embedding because `Row` fixes the loader's schema.
-/
def salesByTime (df : Option (List Row)) (time_unit : String)
    (category : Option String) : Except String (List (String × ℤ)) :=
  match df with
  | none => .error "数据未加载，请先加载数据"
  | some rows =>
    if rows.length = 0 then .error "数据集为空"
    else
      match category with
      | some c =>
        if (rows.map (fun r => r.category)).contains c then
          let rows2 := filterCategory (some c) rows
          if rows2.length = 0 then .error "筛选后的数据集为空"
          else salesByTimeGrouped rows2 time_unit
        else .error ("指定的商品类别 '" ++ c ++ "' 不存在")
      | none =>
        let rows2 := filterCategory none rows
        if rows2.length = 0 then .error "筛选后的数据集为空"
        else salesByTimeGrouped rows2 time_unit

/-- Split a character list at a separator (used to parse bucket labels,
as `pd.to_datetime` does on the label strings the engine itself emits). -/
def splitOnSep (sep : Char) : List Char → List (List Char)
  | [] => [[]]
  | c :: cs =>
    let rest := splitOnSep sep cs
    if c = sep then [] :: rest
    else
      match rest with
      | [] => [[c]]
      | h :: t => (c :: h) :: t

/-- Parse a run of decimal digits. -/
def digitsToNat (cs : List Char) : ℕ :=
  cs.foldl (fun n c => n * 10 + (c.toNat - 48)) 0

/-- `pd.to_datetime` applied to the last `时间` label of an aggregated
series.  The engine only hands it its own label shapes: `YYYY-MM-DD`
(daily), `YYYY-MM` (monthly, parsed to the first of the month) and
`YYYY-Qq` (quarterly, parsed to the first month of the quarter).  Other
shapes are unreachable from `get_sales_by_time`. -/
def parseTimeLabel (s : String) : Date :=
  match splitOnSep '-' s.data with
  | [ys, ms] =>
    match ms with
    | 'Q' :: qs => ⟨digitsToNat ys, 3 * digitsToNat qs - 2, 1⟩
    | _ => ⟨digitsToNat ys, digitsToNat ms, 1⟩
  | [ys, ms, ds] => ⟨digitsToNat ys, digitsToNat ms, digitsToNat ds⟩
  | _ => ⟨0, 0, 0⟩

/-- Step `i` months forward from `(y, m)` (month in 1..12), returning the
year-month of the result. -/
def monthAdd (y m i : ℕ) : ℕ × ℕ :=
  let t := y * 12 + (m - 1) + i
  (t / 12, t % 12 + 1)

/-- `pd.date_range(start=last_date, periods=periods+1, freq='M')[1:]`
rendered with `strftime('%Y-%m')`.  With month-end frequency, element
`i` of the range is the last day of month `start + i` (the range starts
at the month end of `start`'s own month), so after dropping the first
element the labels are the `periods` months following `last`. -/
def forecastDateLabels (last : Date) (periods : ℕ) : List String :=
  ((List.range (periods + 1)).map (fun i => fmtYM (monthAdd last.y last.m i))).drop 1

/-- One row of the result table the two local forecasting strategies
assemble: 日期 → `date`, 预测销售额 → `predicted`, 数据类型 → `kind`
(`"历史"` or `"预测"`), 实际销售额 → `actual` (`none` models the NaN the
`loc` assignment leaves on forecast rows). -/
structure ForecastRow where
  date : String
  predicted : ℚ
  kind : String
  actual : Option ℤ := none
deriving DecidableEq, Repr

/-- Zip the three constructed columns into rows (the `pd.DataFrame`
dict construction; all three lists have equal length when called). -/
def zipRows : List String → List ℚ → List String → List ForecastRow
  | d :: ds, p :: ps, k :: ks => ⟨d, p, k, none⟩ :: zipRows ds ps ks
  | _, _, _ => []

/-- `result.loc[:len(y)-1, '实际销售额'] = y`: write the actual values
onto the first `len y` rows, leave the rest NaN.  The result frame's
index is the concatenation `0..n-1, 0..periods-1` (`n = len y`), and
this definition models the label slice in the regime where its right
bound `n-1` is a unique label of that index — that is, `periods < n`
(including `periods = 0`) — where the assignment resolves to the first
`n` positions.  Outside that regime the source behaves differently
(for `periods ≥ n ≥ 2` the bound label is duplicated in the
non-monotonic index and pandas raises a `KeyError`; for `n = 1` with
`periods ≥ 1` the monotonic duplicated index makes the slice spill onto
the first forecast row): those error/edge paths are not modeled —
claims that a call is *accepted* carry an explicit `periods < n`
hypothesis, and every witness instantiates inside this regime. -/
def setActuals : List ℤ → List ForecastRow → List ForecastRow
  | [], rs => rs
  | _, [] => []
  | v :: vs, r :: rs => { r with actual := some v } :: setActuals vs rs

/-- Shared assembly of the strategies' result frame: historical labels
and fitted values, then forecast labels and projected values, `数据类型`
flags, and the actual-value column on the historical prefix. -/
def assembleForecast (labels : List String) (histPred : List ℚ)
    (futLabels : List String) (futPred : List ℚ) (ys : List ℤ)
    (periods : ℕ) : List ForecastRow :=
  setActuals ys
    (zipRows (labels ++ futLabels) (histPred ++ futPred)
      (List.replicate ys.length "历史" ++ List.replicate periods "预测"))

/-- Ordinary least squares of the series values against the index
`0..n-1` (what `sklearn.linear_model.LinearRegression` computes);
returns `(intercept, slope)`. -/
def linearFit (ys : List ℚ) : ℚ × ℚ :=
  let n : ℚ := (ys.length : ℚ)
  let xs : List ℚ := (List.range ys.length).map (fun (i : ℕ) => (i : ℚ))
  let xbar := xs.sum / n
  let ybar := ys.sum / n
  let sxx := (xs.map (fun x => (x - xbar) ^ 2)).sum
  let sxy := ((xs.zip ys).map (fun p => (p.1 - xbar) * (p.2 - ybar))).sum
  let slope := sxy / sxx
  (ybar - slope * xbar, slope)

/-- The `时间` column of an aggregated series. -/
def seriesLabels (sales_data : List (String × ℤ)) : List String :=
  sales_data.map (fun p => p.1)

/-- The `总价` column of an aggregated series (`y` in the strategies). -/
def seriesVals (sales_data : List (String × ℤ)) : List ℤ :=
  sales_data.map (fun p => p.2)

/-- `pd.to_datetime(sales_data['时间'].iloc[-1])` — the parsed last
label of the series. -/
def lastLabelDate (sales_data : List (String × ℤ)) : Date :=
  parseTimeLabel ((seriesLabels sales_data).getLastD "")

/-- The OLS model `LinearRegression().fit(X, y)` for `X = 0..n-1`. -/
def linModel (sales_data : List (String × ℤ)) : ℚ × ℚ :=
  linearFit ((seriesVals sales_data).map (fun (v : ℤ) => (v : ℚ)))

/-- `model.predict(X)`: in-sample predictions at indices `0..n-1`. -/
def linHistPred (sales_data : List (String × ℤ)) : List ℚ :=
  (List.range (seriesVals sales_data).length).map
    (fun (i : ℕ) => (linModel sales_data).1 + (linModel sales_data).2 * (i : ℚ))

/-- `model.predict(X_future)`: projections at indices `n..n+periods-1`. -/
def linFutPred (sales_data : List (String × ℤ)) (periods : ℕ) : List ℚ :=
  (List.range' (seriesVals sales_data).length periods).map
    (fun (i : ℕ) => (linModel sales_data).1 + (linModel sales_data).2 * (i : ℚ))

/-- `_predict_with_linear_regression(sales_data, periods)`
(`sales_analyzer.py:599-627`): fit OLS on the integer time index,
project indices `n..n+periods-1`, and assemble the result frame with
month-stepped forecast labels taken from the series' last label. -/
def predictWithLinearRegression (sales_data : List (String × ℤ))
    (periods : ℕ) : List ForecastRow :=
  assembleForecast (seriesLabels sales_data) (linHistPred sales_data)
    (forecastDateLabels (lastLabelDate sales_data) periods)
    (linFutPred sales_data periods) (seriesVals sales_data) periods

/-- `_predict_with_exp_smoothing(sales_data, periods)`
(`sales_analyzer.py:565-597`).  The Holt-Winters fit
(`ExponentialSmoothing(y, seasonal_periods=12, trend='add',
seasonal='add').fit(optimized=True)`) is an opaque numerical optimizer;
its in-sample `fittedvalues` (one per observation) and `forecast(periods)`
output are passed in as `fitted` and `forecast`.  Everything else — the
result-frame assembly and the month-stepped forecast labels — is the
engine's own code and is embedded. -/
def predictWithExpSmoothing (fitted forecast : List ℚ)
    (sales_data : List (String × ℤ)) (periods : ℕ) : List ForecastRow :=
  assembleForecast (seriesLabels sales_data) fitted
    (forecastDateLabels (lastLabelDate sales_data) periods)
    forecast (seriesVals sales_data) periods

/-- `predict_sales(time_unit, category, periods, method)`
(`sales_analyzer.py:469-512`).  `prophetFn` abstracts the optional
Prophet back end (`_predict_with_prophet`), `prophetAvailable` the
import-time `PROPHET_AVAILABLE` flag, and `fitted`/`forecast` the
Holt-Winters optimizer output (see `predictWithExpSmoothing`).  Note:
the method validates the time unit and the method name but performs no
bounds check whatsoever on `periods`. -/
def predictSales (prophetFn : List (String × ℤ) → ℕ → String → List ForecastRow)
    (prophetAvailable : Bool) (fitted forecast : List ℚ)
    (df : Option (List Row)) (time_unit : String) (category : Option String)
    (periods : ℕ) (method : String) : Except String (List ForecastRow) :=
  match df with
  | none => .error "数据未加载，请先加载数据"
  | some rows =>
    match salesByTime (some rows) time_unit category with
    | .error e => .error e
    | .ok sales_data =>
      if sales_data.length = 0 then .error "没有足够的数据进行预测"
      else if time_unit = "日" ∨ time_unit = "月" ∨ time_unit = "季度" then
        let freq := if time_unit = "日" then "D" else if time_unit = "月" then "M" else "Q"
        if method = "prophet" then
          if prophetAvailable then .ok (prophetFn sales_data periods freq)
          else .error "Prophet库未安装，无法使用Prophet进行预测。请使用 'exponential_smoothing' 或 'linear' 方法。"
        else if method = "exponential_smoothing" then
          .ok (predictWithExpSmoothing fitted forecast sales_data periods)
        else if method = "linear" then
          .ok (predictWithLinearRegression sales_data periods)
        else .error ("不支持的预测方法: " ++ method)
      else .error ("不支持的时间单位: " ++ time_unit ++ "，仅支持日、月、季度")

/-- One row of the `get_top_products` result (`商品名称` plus the summed
measure column `销售额` or `销售量`). -/
structure ProductAgg where
  productName : String
  value : ℤ
deriving DecidableEq, Repr

/-- `groupby('商品名称')[col].sum().reset_index()`: per-product sums with
product names ascending. -/
def productSums (v : Row → ℤ) (rows : List Row) : List ProductAgg :=
  (groupKeys strLe (fun r => r.productName) rows).map
    (fun k => ⟨k, ((fiber (fun r => r.productName) rows k).map v).sum⟩)

/-- Comparison on the measure column used by the ranking argsort. -/
def valLe (a b : ProductAgg) : Bool := decide (a.value ≤ b.value)

/-- `sort_values(col, ascending=False)`: pandas computes an ascending
argsort of the values and reverses it.  We model the argsort kernel as
the stable insertion sort (numpy's default sort runs its stable
insertion-sort kernel below the 16-element partition threshold; tie
order above it is algorithm-dependent and not modeled), so
equal-valued entries come out in reversed input order. -/
def rankDesc (l : List ProductAgg) : List ProductAgg :=
  (sortAsc valLe l).reverse

/-- Strict product-name order on ranking entries. -/
def nameLt (a b : ProductAgg) : Prop :=
  strLe a.productName b.productName = true ∧ a.productName ≠ b.productName

/-- The order in which the ascending value argsort leaves the name-sorted
group table: values ascending, ties in name order. -/
def rankRel (a b : ProductAgg) : Prop :=
  a.value < b.value ∨ (a.value = b.value ∧ nameLt a b)

/-- `get_top_products(n, measure, category)` (`sales_analyzer.py:175-202`).
Returns `none` when no data is loaded; groups the (optionally
category-filtered) copy by product name, sums the measure column, sorts
descending and keeps the first `n`. -/
def getTopProducts (df : Option (List Row)) (n : ℕ) (measure : String)
    (category : Option String) : Except String (Option (List ProductAgg)) :=
  match df with
  | none => .ok none
  | some rows =>
    let data :=
      match category with
      | some c => rows.filter (fun r => r.category == c)
      | none => rows
    if measure = "销售额" then
      .ok (some ((rankDesc (productSums (fun r => r.totalPrice) data)).take n))
    else if measure = "销售量" then
      .ok (some ((rankDesc (productSums (fun r => r.quantity) data)).take n))
    else .error ("不支持的衡量标准: " ++ measure)

/-- The promotional-window tag `get_seasonal_trends` writes into the
`购物节` column of each record (`sales_analyzer.py:319-335`): the column
is initialised to `普通日期` and then overwritten by three successive
`loc` mask assignments, so for a record matching several windows the
later assignment in program order wins. -/
def festivalTag (y m d : ℕ) : String :=
  let t0 := "普通日期"
  let t1 :=
    if (y = 2022 ∧ m = 2 ∧ d ≤ 7) ∨ (y = 2023 ∧ m = 1 ∧ 20 ≤ d ∧ d ≤ 27)
    then "春节" else t0
  let t2 := if m = 6 ∧ 10 ≤ d ∧ d ≤ 20 then "618购物节" else t1
  if m = 11 ∧ 9 ≤ d ∧ d ≤ 12 then "双11购物节" else t2

/-- A named calendar rule: a predicate on `(年, 月, 日)` and the tag it
assigns. -/
structure CalendarRule where
  cond : ℕ → ℕ → ℕ → Bool
  tag : String

/-- Apply calendar rules in listed order, the last matching rule
winning, over a default tag. -/
def applyRulesLastWins (rules : List CalendarRule) (dflt : String)
    (y m d : ℕ) : String :=
  rules.foldl (fun acc r => if r.cond y m d then r.tag else acc) dflt

/-- The three promotional windows of `get_seasonal_trends`, in the order
their `loc` assignments execute. -/
def festivalRules : List CalendarRule :=
  [⟨fun y m d => decide ((y = 2022 ∧ m = 2 ∧ d ≤ 7) ∨
      (y = 2023 ∧ m = 1 ∧ 20 ≤ d ∧ d ≤ 27)), "春节"⟩,
   ⟨fun _ m d => decide (m = 6 ∧ 10 ≤ d ∧ d ≤ 20), "618购物节"⟩,
   ⟨fun _ m d => decide (m = 11 ∧ 9 ≤ d ∧ d ≤ 12), "双11购物节"⟩]

/-- One row of the `discount_effect` table of `get_promotion_effect`
(`订单ID` count, `总价` sum, `数量` sum per `有折扣` group). -/
structure DiscountAgg where
  hasDiscount : Bool
  orders : ℕ
  revenue : ℤ
  quantity : ℤ
deriving DecidableEq, Repr

/-- One row of the `category_discount` table of `get_promotion_effect`. -/
structure CatDiscountAgg where
  category : String
  hasDiscount : Bool
  orders : ℕ
  revenue : ℤ
deriving DecidableEq, Repr

/-- Ascending order on `(商品类别, 有折扣)` group keys (pandas sorts the
pair lexicographically, `False < True`). -/
def catBoolLe (a b : String × Bool) : Bool :=
  if a.1 ≠ b.1 then strLe a.1 b.1 else !a.2 || b.2

/-- `get_promotion_effect()` (`sales_analyzer.py:279-302`), in
state-passing form: the first component is the loaded table **after**
the call.  The method writes the derived column
`self.df['有折扣'] = self.df['折扣率'] < 1.0` into the shared table in
place, then aggregates by `有折扣` and by `(商品类别, 有折扣)`. -/
def getPromotionEffect (df : Option (List Row)) :
    Option (List Row) × Option (List DiscountAgg × List CatDiscountAgg) :=
  match df with
  | none => (none, none)
  | some rows =>
    let rows2 := rows.map (fun r => { r with hasDiscount := some (decide (r.discountRate < 100)) })
    let de :=
      (groupKeys (fun a b => !a || b) (fun r => r.hasDiscount.getD false) rows2).map
        (fun k =>
          let g := fiber (fun r => r.hasDiscount.getD false) rows2 k
          (⟨k, g.length, (g.map (fun r => r.totalPrice)).sum,
            (g.map (fun r => r.quantity)).sum⟩ : DiscountAgg))
    let cd :=
      (groupKeys catBoolLe (fun r => (r.category, r.hasDiscount.getD false)) rows2).map
        (fun k =>
          let g := fiber (fun r => (r.category, r.hasDiscount.getD false)) rows2 k
          (⟨k.1, k.2, g.length, (g.map (fun r => r.totalPrice)).sum⟩ : CatDiscountAgg))
    (some rows2, some (de, cd))

/-- One row of the monthly-sales table of `get_seasonal_trends`
(grouped on the table's stored `年`/`月` columns; the display column
`月份` simply repeats `月` as an int and is not modeled separately). -/
structure YMAgg where
  year : ℕ
  month : ℕ
  revenue : ℤ
deriving DecidableEq, Repr

/-- One row of the quarterly-sales table of `get_seasonal_trends`. -/
structure YQAgg where
  year : ℕ
  quarter : ℕ
  revenue : ℤ
deriving DecidableEq, Repr

/-- One row of the festival-sales table of `get_seasonal_trends`
(`订单ID` count, `总价` sum, `折扣率` mean per `购物节` tag; the mean is
in the hundredths scale of `discountRate`). -/
structure FestivalAgg where
  festival : String
  orders : ℕ
  revenue : ℤ
  discountMean : ℚ
deriving DecidableEq, Repr

/-- Ascending order on `(年, 季度)` keys with a natural quarter. -/
def yqnLe (a b : ℕ × ℕ) : Bool :=
  if a.1 ≠ b.1 then a.1 < b.1 else a.2 ≤ b.2

/-- `get_seasonal_trends()` (`sales_analyzer.py:304-344`), in
state-passing form.  Monthly and quarterly revenue are grouped on the
table's stored `年`/`月`/`季度` columns; then the method writes the
derived `购物节` tag column into the shared table in place (see
`festivalTag`) and aggregates per tag. -/
def getSeasonalTrends (df : Option (List Row)) :
    Option (List Row) ×
      Option (List YMAgg × List YQAgg × List FestivalAgg) :=
  match df with
  | none => (none, none)
  | some rows =>
    let monthly :=
      (groupSums ymLe (fun r => (r.year, r.month)) (fun r => r.totalPrice) rows).map
        (fun p => (⟨p.1.1, p.1.2, p.2⟩ : YMAgg))
    let quarterly :=
      (groupSums yqnLe (fun r => (r.year, r.quarter)) (fun r => r.totalPrice) rows).map
        (fun p => (⟨p.1.1, p.1.2, p.2⟩ : YQAgg))
    let rows2 := rows.map (fun r => { r with festival := some (festivalTag r.year r.month r.day) })
    let fest :=
      (groupKeys strLe (fun r => r.festival.getD "") rows2).map
        (fun k =>
          let g := fiber (fun r => r.festival.getD "") rows2 k
          (⟨k, g.length, (g.map (fun r => r.totalPrice)).sum,
            ((g.map (fun r => r.discountRate)).sum : ℚ) / (g.length : ℚ)⟩ : FestivalAgg))
    (some rows2, some (monthly, quarterly, fest))

/-- One row of the per-customer feature table built by
`get_customer_segments` (`sales_analyzer.py:214-245`): 顾客ID, 订单数量,
总消费额, 不同商品数, 首次购买日期, 最近购买日期, 消费间隔天数, 活跃天数,
平均每月消费次数, 客户群体, 客户群体标签. -/
structure CustomerRow where
  customerId : String
  orderCount : ℕ
  totalSpend : ℤ
  distinctProducts : ℕ
  firstDate : Date
  lastDate : Date
  recencyDays : ℤ
  activeDays : ℤ
  monthlyRate : ℚ
  cluster : ℕ := 0
  segLabel : Option String := none
deriving DecidableEq, Repr

/-- One row of the per-cluster mean-feature table
(`customer_data.groupby('客户群体')[features].mean()`). -/
structure ClusterMeans where
  cluster : ℕ
  orderCount : ℚ
  totalSpend : ℚ
  distinctProducts : ℚ
  recencyDays : ℚ
  monthlyRate : ℚ
deriving DecidableEq, Repr

/-- Earlier of two dates (pandas `min` aggregate). -/
def dateMin (a b : Date) : Date := if dateLe a b then a else b

/-- Later of two dates (pandas `max` aggregate). -/
def dateMax (a b : Date) : Date := if dateLe a b then b else a

/-- Minimum of a date list with the head as the seed (the list is a
non-empty pandas group). -/
def dateMinList : List Date → Date
  | [] => ⟨0, 0, 0⟩
  | d :: ds => ds.foldl dateMin d

/-- Maximum of a date list with the head as the seed. -/
def dateMaxList : List Date → Date
  | [] => ⟨0, 0, 0⟩
  | d :: ds => ds.foldl dateMax d

/-- The per-customer aggregation and derived features of
`get_customer_segments` (`sales_analyzer.py:214-230`): group by 顾客ID
(keys ascending), count orders, sum spend, count distinct products, take
first/last purchase dates; then recency against the dataset's max date,
active span clipped below at 1, and the monthly order rate
`订单数量 / (活跃天数 / 30)`. -/
def customerFeatureRows (rows : List Row) : List CustomerRow :=
  let lastDate := dateMaxList (rows.map (fun r => r.date))
  (groupKeys strLe (fun r => r.customerId) rows).map (fun cid =>
    let g := fiber (fun r => r.customerId) rows cid
    let fd := dateMinList (g.map (fun r => r.date))
    let ld := dateMaxList (g.map (fun r => r.date))
    let active : ℤ := max 1 (ld.toDays - fd.toDays)
    { customerId := cid
      orderCount := g.length
      totalSpend := (g.map (fun r => r.totalPrice)).sum
      distinctProducts := (g.map (fun r => r.productName)).dedup.length
      firstDate := fd
      lastDate := ld
      recencyDays := lastDate.toDays - ld.toDays
      activeDays := active
      monthlyRate := (g.length : ℚ) / ((active : ℚ) / 30) })

/-- The clustering feature vector, in the order of the `features` list
`['订单数量', '总消费额', '不同商品数', '消费间隔天数', '平均每月消费次数']`. -/
def featVec (c : CustomerRow) : List ℚ :=
  [(c.orderCount : ℚ), (c.totalSpend : ℚ), (c.distinctProducts : ℚ),
   (c.recencyDays : ℚ), c.monthlyRate]

/-- `customer_data['客户群体'] = clusters`: positional assignment of the
cluster ids returned by the clustering back end. -/
def assignClusters : List CustomerRow → List ℕ → List CustomerRow
  | c :: cs, k :: ks => { c with cluster := k } :: assignClusters cs ks
  | cs, [] => cs
  | [], _ => []

/-- `customer_data.groupby('客户群体')[features].mean()`: per-cluster
feature means, cluster ids ascending. -/
def clusterMeanTable (cd : List CustomerRow) : List ClusterMeans :=
  (groupKeys (fun a b => decide (a ≤ b)) (fun c => c.cluster) cd).map (fun k =>
    let g := fiber (fun c => c.cluster) cd k
    let n : ℚ := (g.length : ℚ)
    { cluster := k
      orderCount := ((g.map (fun c => (c.orderCount : ℚ))).sum) / n
      totalSpend := ((g.map (fun c => (c.totalSpend : ℚ))).sum) / n
      distinctProducts := ((g.map (fun c => (c.distinctProducts : ℚ))).sum) / n
      recencyDays := ((g.map (fun c => (c.recencyDays : ℚ))).sum) / n
      monthlyRate := ((g.map (fun c => c.monthlyRate)).sum) / n })

/-- The cluster-labeling rule of `get_customer_segments`
(`sales_analyzer.py:252-272`), verbatim from the source: the value/
frequency stem compares the cluster's mean spend and mean order count
against the medians of those means across the cluster table, and the
recency comparison prefixes 活跃 (strictly below the median) or
流失风险 (otherwise). -/
def segmentLabel (cfs : List ClusterMeans) (row : ClusterMeans) : String :=
  let medSpend := median (cfs.map (fun r => r.totalSpend))
  let medOrders := median (cfs.map (fun r => r.orderCount))
  let medRecency := median (cfs.map (fun r => r.recencyDays))
  let base :=
    if row.totalSpend > medSpend ∧ row.orderCount > medOrders then "高价值忠诚客户"
    else if row.totalSpend > medSpend ∧ row.orderCount ≤ medOrders then "高价值低频客户"
    else if row.totalSpend ≤ medSpend ∧ row.orderCount > medOrders then "低价值高频客户"
    else "低价值低频客户"
  if row.recencyDays < medRecency then "活跃" ++ base else "流失风险" ++ base

/-- The labeling rule as the specification words it (§3/§4.3): a stem
chosen by whether mean spend and mean order count exceed the medians of
the per-cluster means — high-value loyal (高价值忠诚客户), high-value
low-frequency (高价值低频客户), low-value high-frequency (低价值高频客户),
low-value low-frequency (低价值低频客户) — prefixed active (活跃) when
the cluster's mean recency is below the median of cluster-mean
recencies, and at-risk (流失风险) otherwise. -/
def specSegmentLabel (cfs : List ClusterMeans) (row : ClusterMeans) : String :=
  let highValue := row.totalSpend > median (cfs.map (fun r => r.totalSpend))
  let highFreq := row.orderCount > median (cfs.map (fun r => r.orderCount))
  let stem :=
    if highValue then (if highFreq then "高价值忠诚客户" else "高价值低频客户")
    else (if highFreq then "低价值高频客户" else "低价值低频客户")
  let active := row.recencyDays < median (cfs.map (fun r => r.recencyDays))
  (if active then "活跃" else "流失风险") ++ stem

/-- The `for cluster in range(n_clusters)` labeling loop: look up each
cluster's mean row (`.iloc[0]` raises when a cluster id has no row) and
compute its label. -/
def buildLabelTable (cfs : List ClusterMeans) : List ℕ → Except String (List (ℕ × String))
  | [] => .ok []
  | cid :: rest =>
    match cfs.find? (fun r => r.cluster == cid) with
    | none => .error "single positional indexer is out-of-bounds"
    | some row =>
      match buildLabelTable cfs rest with
      | .error e => .error e
      | .ok t => .ok ((cid, segmentLabel cfs row) :: t)

/-- `Series.map(segment_labels)`: dictionary lookup, `NaN` (`none`) when
the key is absent. -/
def lookupTbl (tbl : List (ℕ × String)) (c : ℕ) : Option String :=
  (tbl.find? (fun p => p.1 == c)).map (fun p => p.2)

/-- The label each cluster id receives, as a pure function of the
per-cluster mean table and the cluster count. -/
def labelLookup (cfs : List ClusterMeans) (k : ℕ) (cid : ℕ) : Option String :=
  match buildLabelTable cfs (List.range k) with
  | .ok t => lookupTbl t cid
  | .error _ => none

/-- `get_customer_segments(n_clusters)` (`sales_analyzer.py:204-277`).
Returns `None` (not an error) when no data is loaded.  `cluster`
abstracts the `StandardScaler().fit_transform` +
`KMeans(n_clusters, random_state=42).fit_predict` pipeline: an opaque
deterministic function from the feature matrix and the cluster count to
one cluster id per customer.  Everything else — the feature build, the
per-cluster means, the labeling — is embedded from the source. -/
def getCustomerSegments (cluster : List (List ℚ) → ℕ → List ℕ)
    (df : Option (List Row)) (n_clusters : ℕ) :
    Except String (Option (List CustomerRow × List ClusterMeans)) :=
  match df with
  | none => .ok none
  | some rows =>
    let cd0 := customerFeatureRows rows
    let cl := cluster (cd0.map featVec) n_clusters
    let cd1 := assignClusters cd0 cl
    let cfs := clusterMeanTable cd1
    match buildLabelTable cfs (List.range n_clusters) with
    | .error e => .error e
    | .ok tbl =>
      .ok (some (cd1.map (fun r => { r with segLabel := lookupTbl tbl r.cluster }), cfs))

/-- One entry of the decision-suggestion list: `类型` and `建议`. -/
structure Suggestion where
  kind : String
  advice : String
deriving DecidableEq, Repr

/-- The local fault isolation inside each `_analyze_.../_generate_...`
helper: the helper's computation runs inside its own
`try/except Exception`, and a failure is downgraded to the helper's
literal fallback advice string. -/
def helperCatch (fallback : String) (comp : Except String String) : String :=
  match comp with
  | .ok s => s
  | .error _ => fallback

/-- `generate_decision_suggestions(category)` (`sales_analyzer.py:629-686`).
Each of the five steps is a helper whose internal computation is passed
in as an `Except` (the helper may fail internally); the helper itself
catches and substitutes its fallback string, so it is total.  Because
every helper is total, the method's outer `try/except` (which would
append an `错误` entry) is unreachable, and the five entries are always
appended in program order. -/
def generateDecisionSuggestions (df : Option (List Row))
    (trendC invC promC custC prodC : Except String String) :
    Except String (List Suggestion) :=
  match df with
  | none => .error "数据未加载，请先加载数据"
  | some _ =>
    .ok [⟨"销售趋势建议", helperCatch "无法分析销售趋势" trendC⟩,
         ⟨"库存管理建议", helperCatch "无法生成库存管理建议" invC⟩,
         ⟨"促销策略建议", helperCatch "无法生成促销策略建议" promC⟩,
         ⟨"客户营销建议", helperCatch "无法生成客户营销建议" custC⟩,
         ⟨"产品组合建议", helperCatch "无法生成产品组合建议" prodC⟩]

/-- `get_sales_by_time` in state-passing form: it derives everything on
`self.df.copy()` (`sales_analyzer.py:97`), so the loaded table is
untouched. -/
def salesByTimeState (df : Option (List Row)) (time_unit : String)
    (category : Option String) :
    Option (List Row) × Except String (List (String × ℤ)) :=
  (df, salesByTime df time_unit category)

/-- `get_top_products` in state-passing form: it works on
`self.df.copy()` (`sales_analyzer.py:187`). -/
def getTopProductsState (df : Option (List Row)) (n : ℕ) (measure : String)
    (category : Option String) :
    Option (List Row) × Except String (Option (List ProductAgg)) :=
  (df, getTopProducts df n measure category)

/-- `predict_sales` in state-passing form: it only reads the table
(through `get_sales_by_time`'s copy). -/
def predictSalesState (prophetFn : List (String × ℤ) → ℕ → String → List ForecastRow)
    (prophetAvailable : Bool) (fitted forecast : List ℚ)
    (df : Option (List Row)) (time_unit : String) (category : Option String)
    (periods : ℕ) (method : String) :
    Option (List Row) × Except String (List ForecastRow) :=
  (df, predictSales prophetFn prophetAvailable fitted forecast df time_unit
    category periods method)

/-- `get_customer_segments` in state-passing form: it aggregates into
fresh frames and never writes to `self.df`. -/
def getCustomerSegmentsState (cluster : List (List ℚ) → ℕ → List ℕ)
    (df : Option (List Row)) (n_clusters : ℕ) :
    Option (List Row) × Except String (Option (List CustomerRow × List ClusterMeans)) :=
  (df, getCustomerSegments cluster df n_clusters)

/-- The in-place column write of `get_promotion_effect`
(`self.df['有折扣'] = self.df['折扣率'] < 1.0`). -/
def markDiscount (r : Row) : Row :=
  { r with hasDiscount := some (decide (r.discountRate < 100)) }

/-- The in-place column write of `get_seasonal_trends`
(the `购物节` initialisation and the three `loc` mask assignments). -/
def markFestival (r : Row) : Row :=
  { r with festival := some (festivalTag r.year r.month r.day) }

/-! ### Concrete tables used to instantiate the theorems -/

/-- A template row of the generated dataset (`日期` 2022-01-05). -/
def demoRow : Row :=
  { orderId := "ORD-20220105-00001", date := ⟨2022, 1, 5⟩, year := 2022,
    month := 1, day := 5, quarter := 1, category := "电子产品",
    subcategory := "手机", productName := "iPhone 14", unitPrice := 5,
    quantity := 1, discountRate := 100, totalPrice := 5,
    customerId := "CUST-10001", customerName := "王伟", province := "北京市",
    city := "海淀区", address := "街道1", store := "店铺A", rating := 5,
    paymentMethod := "支付宝", deliveryDays := 3 }

/-- The second demo row (`日期` 2022-01-20, another customer/product). -/
def demoRow2 : Row :=
  { demoRow with
    orderId := "ORD-20220120-00002"
    date := ⟨2022, 1, 20⟩
    day := 20
    productName := "小米13"
    totalPrice := 3
    customerId := "CUST-10002" }

/-- The third demo row (`日期` 2022-02-10). -/
def demoRow3 : Row :=
  { demoRow with
    orderId := "ORD-20220210-00003"
    date := ⟨2022, 2, 10⟩
    month := 2
    day := 10
    totalPrice := 4 }

/-- A three-row table spanning the months 2022-01 and 2022-02. -/
def demoRows : List Row := [demoRow, demoRow2, demoRow3]

/-- Two rows whose products tie on revenue; product `"a"` comes first in
input order. -/
def tieRows : List Row :=
  [{ demoRow with
      productName := "a"
      totalPrice := 10 },
   { demoRow2 with
      productName := "b"
      totalPrice := 10 }]

/-- A 24-point monthly aggregated series (labels 2022-01 .. 2023-12). -/
def demoSeries24 : List (String × ℤ) :=
  (List.range 24).map (fun i => (fmtYM (monthAdd 2022 1 i), (i : ℤ) + 1))

/-- A two-point quarterly aggregated series. -/
def demoSeriesQ : List (String × ℤ) := [("2023-Q1", 6), ("2023-Q2", 4)]

/-- A 26-row table with one order in each of the 26 months
2022-01 .. 2024-02 (so its monthly aggregation has 26 buckets). -/
def demoRows26 : List Row :=
  (List.range 26).map (fun i =>
    { demoRow with
        orderId := "ORD-" ++ toString i
        date := ⟨2022 + i / 12, i % 12 + 1, 5⟩
        year := 2022 + i / 12
        month := i % 12 + 1
        totalPrice := (i : ℤ) + 1 })

/-- The monthly aggregation of `demoRows26`. -/
def demoSd26 : List (String × ℤ) :=
  (List.range 26).map (fun i => (fmtYM (monthAdd 2022 1 i), (i : ℤ) + 1))

/-- Whether an `Except` value is a success (i.e. no exception was
raised). -/
def isOk : Except ε α → Bool
  | .ok _ => true
  | .error _ => false

/-! ### Sorting infrastructure -/

theorem perm_insertLe (le : α → α → Bool) (x : α) :
    ∀ l : List α, List.Perm (insertLe le x l) (x :: l) := by
  intro l
  induction l with
  | nil => simp [insertLe]
  | cons y ys ih =>
    by_cases h : le x y
    · simp [insertLe, h]
    · simp only [insertLe, h, if_false]
      exact (ih.cons y).trans (List.Perm.swap x y ys)

theorem perm_sortAsc (le : α → α → Bool) :
    ∀ l : List α, List.Perm (sortAsc le l) l := by
  intro l
  induction l with
  | nil => simp [sortAsc]
  | cons x xs ih =>
    exact (perm_insertLe le x (sortAsc le xs)).trans (ih.cons x)

theorem mem_sortAsc (le : α → α → Bool) (l : List α) (a : α) :
    a ∈ sortAsc le l ↔ a ∈ l :=
  (perm_sortAsc le l).mem_iff

theorem nodup_sortAsc (le : α → α → Bool) (l : List α) (h : l.Nodup) :
    (sortAsc le l).Nodup :=
  ((perm_sortAsc le l).nodup_iff).mpr h

theorem nodup_groupKeys [DecidableEq κ] (le : κ → κ → Bool) (f : α → κ)
    (l : List α) : (groupKeys le f l).Nodup :=
  nodup_sortAsc le _ (List.nodup_dedup _)

theorem mem_groupKeys [DecidableEq κ] (le : κ → κ → Bool) (f : α → κ)
    (l : List α) (a : α) (ha : a ∈ l) : f a ∈ groupKeys le f l := by
  rw [groupKeys, mem_sortAsc, List.mem_dedup]
  exact List.mem_map_of_mem f ha

/-! ### Round-trip conservation of grouped sums -/

theorem sum_map_ite [DecidableEq κ] (ks : List κ) (k0 : κ) (c : ℤ)
    (hnd : ks.Nodup) (hmem : k0 ∈ ks) :
    (ks.map (fun k => if k0 = k then c else 0)).sum = c := by
  induction ks with
  | nil => cases hmem
  | cons k ks ih =>
    rcases List.mem_cons.mp hmem with h | h
    · subst h
      have hnin : k0 ∉ ks := (List.nodup_cons.mp hnd).1
      have hz : (ks.map (fun k => if k0 = k then c else 0)).sum = 0 := by
        apply List.sum_eq_zero
        intro x hx
        rcases List.mem_map.mp hx with ⟨k', hk', rfl⟩
        have hne : k0 ≠ k' := fun h => hnin (h ▸ hk')
        simp [hne]
      simp [hz]
    · have hne : k0 ≠ k := by
        rintro rfl
        exact (List.nodup_cons.mp hnd).1 h
      have := ih (List.nodup_cons.mp hnd).2 h
      simp [hne, this]

theorem sum_map_add_int (ks : List κ) (g h : κ → ℤ) :
    (ks.map (fun k => g k + h k)).sum = (ks.map g).sum + (ks.map h).sum := by
  induction ks with
  | nil => simp
  | cons k ks ih => simp [ih]; ring

theorem sum_fibers [DecidableEq κ] (f : α → κ) (v : α → ℤ) (ks : List κ)
    (l : List α) (hnd : ks.Nodup) (hcov : ∀ a ∈ l, f a ∈ ks) :
    (ks.map (fun k => ((fiber f l k).map v).sum)).sum = (l.map v).sum := by
  induction l with
  | nil => simp [fiber]
  | cons a l ih =>
    have hcov' : ∀ x ∈ l, f x ∈ ks := fun x hx => hcov x (List.mem_cons_of_mem a hx)
    have hfa : f a ∈ ks := hcov a (List.mem_cons_self a l)
    have hsplit : (fun k => ((fiber f (a :: l) k).map v).sum)
        = (fun k => (if f a = k then v a else 0) + ((fiber f l k).map v).sum) := by
      funext k
      by_cases h : f a = k <;> simp [fiber, List.filter_cons, h]
    rw [hsplit, sum_map_add_int, sum_map_ite ks (f a) (v a) hnd hfa, ih hcov']
    simp

/-- Conservation of grouped sums: the bucket totals of a `groupby().sum()`
add up to the total over all input rows. -/
theorem groupSums_conservation [DecidableEq κ] (le : κ → κ → Bool)
    (f : α → κ) (v : α → ℤ) (l : List α) :
    ((groupSums le f v l).map (fun p => p.2)).sum = (l.map v).sum := by
  rw [groupSums, List.map_map]
  exact sum_fibers f v _ l (nodup_groupKeys le f l)
    (fun a ha => mem_groupKeys le f l a ha)

theorem label_map_snd_sum [DecidableEq κ] (le : κ → κ → Bool) (f : Row → κ)
    (lab : κ → String) (l : List Row) :
    (((groupSums le f (fun r => r.totalPrice) l).map
        (fun p => (lab p.1, p.2))).map (fun p => p.2)).sum
      = (l.map (fun r => r.totalPrice)).sum := by
  rw [List.map_map]
  exact groupSums_conservation le f (fun r => r.totalPrice) l

theorem salesByTimeGrouped_ok (rows : List Row) (u : String)
    (g : List (String × ℤ)) (h : salesByTimeGrouped rows u = .ok g) :
    (g.map (fun p => p.2)).sum = (rows.map (fun r => r.totalPrice)).sum := by
  simp only [salesByTimeGrouped] at h
  split_ifs at h <;> cases h <;> apply label_map_snd_sum

theorem salesByTime_ok_shape (rows : List Row) (u : String)
    (category : Option String) (g : List (String × ℤ))
    (h : salesByTime (some rows) u category = .ok g) :
    salesByTimeGrouped (filterCategory category rows) u = .ok g ∧ g.length ≠ 0 := by
  have hlen : ∀ rows' : List Row, salesByTimeGrouped rows' u = .ok g → g.length ≠ 0 := by
    intro rows' h'
    simp only [salesByTimeGrouped] at h'
    split_ifs at h' <;> cases h' <;> assumption
  rcases category with _ | c <;>
    simp only [salesByTime] at h <;>
    split_ifs at h <;>
    first
      | cases h
      | exact ⟨h, hlen _ h⟩

/-- C2: for every non-empty loaded table and every valid time unit
(日, 月, 季度, 年), the sum of the bucket totals returned by
`get_sales_by_time` equals the sum of the `总价` column over the input
rows that survive the optional category filter (round-trip
conservation). -/
theorem sales_by_time_conservation (rows : List Row) (u : String)
    (category : Option String) (g : List (String × ℤ))
    (hne : rows ≠ []) (hu : u ∈ ["日", "月", "季度", "年"])
    (h : salesByTime (some rows) u category = .ok g) :
    (g.map (fun p => p.2)).sum
      = ((filterCategory category rows).map (fun r => r.totalPrice)).sum :=
  salesByTimeGrouped_ok (filterCategory category rows) u g
    (salesByTime_ok_shape rows u category g h).1

/-- Witness for C2: the conservation theorem applied to a concrete
three-row table at monthly granularity. -/
theorem sales_by_time_conservation_witness :
    (demoRows ≠ [] ∧ "月" ∈ ["日", "月", "季度", "年"] ∧
      salesByTime (some demoRows) "月" none = .ok [("2022-01", 8), ("2022-02", 4)]) ∧
    (([("2022-01", (8 : ℤ)), ("2022-02", 4)].map (fun p => p.2)).sum
      = ((filterCategory none demoRows).map (fun r => r.totalPrice)).sum) :=
  ⟨⟨by decide, by decide, by rfl⟩,
    sales_by_time_conservation demoRows "月" none [("2022-01", 8), ("2022-02", 4)]
      (by decide) (by decide) (by rfl)⟩

/-! ### Promotion tagging (C4) -/

/-- C4: the promotion-tagging operation assigns each record exactly one
of the four tags, following the calendar rules in listed order with the
last matching rule winning; a record dated 2023-11-10 is tagged
双11购物节 (Double-Eleven Festival), 2022-02-03 is tagged 春节 (Spring
Festival), and 2023-03-15 is tagged 普通日期 (ordinary day). -/
theorem festival_tagging (y m d : ℕ) :
    festivalTag y m d = applyRulesLastWins festivalRules "普通日期" y m d ∧
    festivalTag y m d ∈ ["春节", "618购物节", "双11购物节", "普通日期"] ∧
    festivalTag 2023 11 10 = "双11购物节" ∧
    festivalTag 2022 2 3 = "春节" ∧
    festivalTag 2023 3 15 = "普通日期" := by
  refine ⟨?_, ?_, by decide, by decide, by decide⟩
  · simp only [festivalTag, applyRulesLastWins, festivalRules, List.foldl_cons,
      List.foldl_nil, decide_eq_true_eq]
  · simp only [festivalTag]
    split_ifs <;> decide

/-! ### Decision suggestions (C7) -/

/-- C7: on a loaded table the decision-suggestion generator returns
exactly 5 advice entries, always in the fixed order trend, inventory,
promotion, customer, product-mix, even when the underlying step
computations raise: each failing step is caught inside its helper and
replaced by that helper's literal fallback advice string. -/
theorem decision_suggestions_shape (rows : List Row)
    (c1 c2 c3 c4 c5 : Except String String) :
    ((generateDecisionSuggestions (some rows) c1 c2 c3 c4 c5).map
        (fun l => l.length) = .ok 5) ∧
    ((generateDecisionSuggestions (some rows) c1 c2 c3 c4 c5).map
        (fun l => l.map (fun s => s.kind))
      = .ok ["销售趋势建议", "库存管理建议", "促销策略建议", "客户营销建议", "产品组合建议"]) ∧
    (∀ e1 e2 e3 e4 e5 : String,
      generateDecisionSuggestions (some rows)
          (.error e1) (.error e2) (.error e3) (.error e4) (.error e5)
        = .ok [⟨"销售趋势建议", "无法分析销售趋势"⟩,
               ⟨"库存管理建议", "无法生成库存管理建议"⟩,
               ⟨"促销策略建议", "无法生成促销策略建议"⟩,
               ⟨"客户营销建议", "无法生成客户营销建议"⟩,
               ⟨"产品组合建议", "无法生成产品组合建议"⟩]) :=
  ⟨rfl, rfl, fun _ _ _ _ _ => rfl⟩

/-! ### Segmentation before load (C6) -/

/-- C6 counterexample: invoked before any data has been loaded,
`get_customer_segments` evaluates to the non-error value `None` — it
does not raise. -/
theorem customer_segments_unloaded_counterexample :
    getCustomerSegments (fun _ _ => []) none 4 = .ok none := rfl

/-- C6 amended: when the customer-segmentation operation is invoked
before any data has been loaded, it returns the sentinel `None` (a
non-error value) instead of raising a not-loaded error. -/
theorem customer_segments_unloaded_returns_none
    (cluster : List (List ℚ) → ℕ → List ℕ) (k : ℕ) :
    getCustomerSegments cluster none k = .ok none := rfl

/-! ### Mutation of the loaded table (C9) -/

/-- C9 counterexample: after a `get_promotion_effect` call the loaded
table differs from the table before the call — the derived 有折扣 column
has been written into it in place. -/
theorem promotion_effect_mutates :
    (getPromotionEffect (some [demoRow])).1 ≠ some [demoRow] := by decide

/-- C9 amended: the aggregation (`get_sales_by_time`), ranking
(`get_top_products`), forecasting (`predict_sales`) and segmentation
(`get_customer_segments`) calls leave the loaded table unchanged (they
derive from copies), but the promotion-analysis calls mutate it in
place: `get_promotion_effect` writes the 有折扣 column and
`get_seasonal_trends` writes the 购物节 column into the shared table. -/
theorem table_state_effects :
    (∀ df u c, (salesByTimeState df u c).1 = df) ∧
    (∀ df n m c, (getTopProductsState df n m c).1 = df) ∧
    (∀ pf pa f fc df u c p m, (predictSalesState pf pa f fc df u c p m).1 = df) ∧
    (∀ cl df k, (getCustomerSegmentsState cl df k).1 = df) ∧
    (∀ rows, (getPromotionEffect (some rows)).1 = some (rows.map markDiscount)) ∧
    (∀ rows, (getSeasonalTrends (some rows)).1 = some (rows.map markFestival)) :=
  ⟨fun _ _ _ => rfl, fun _ _ _ _ => rfl, fun _ _ _ _ _ _ _ _ _ => rfl,
   fun _ _ _ => rfl, fun _ => rfl, fun _ => rfl⟩

/-! ### Forecast-frame assembly -/

theorem zipRows_nil_left (ps : List ℚ) (ks : List String) :
    zipRows [] ps ks = [] := by
  cases ps <;> cases ks <;> rfl

theorem zipRows_length : ∀ (ds : List String) (ps : List ℚ) (ks : List String),
    ds.length = ps.length → ds.length = ks.length →
    (zipRows ds ps ks).length = ds.length := by
  intro ds
  induction ds with
  | nil => intro ps ks _ _; simp [zipRows_nil_left]
  | cons d ds ih =>
    intro ps ks h1 h2
    cases ps with
    | nil => simp at h1
    | cons p ps =>
      cases ks with
      | nil => simp at h2
      | cons k ks =>
        simp [zipRows, ih ps ks (by simpa using h1) (by simpa using h2)]

theorem zipRows_append : ∀ (ds1 : List String) (ps1 : List ℚ) (ks1 : List String)
    (ds2 : List String) (ps2 : List ℚ) (ks2 : List String),
    ds1.length = ps1.length → ds1.length = ks1.length →
    zipRows (ds1 ++ ds2) (ps1 ++ ps2) (ks1 ++ ks2)
      = zipRows ds1 ps1 ks1 ++ zipRows ds2 ps2 ks2 := by
  intro ds1
  induction ds1 with
  | nil =>
    intro ps1 ks1 ds2 ps2 ks2 h1 h2
    cases ps1 with
    | nil =>
      cases ks1 with
      | nil => simp [zipRows_nil_left]
      | cons k ks => simp at h2
    | cons p ps => simp at h1
  | cons d ds ih =>
    intro ps1 ks1 ds2 ps2 ks2 h1 h2
    cases ps1 with
    | nil => simp at h1
    | cons p ps =>
      cases ks1 with
      | nil => simp at h2
      | cons k ks =>
        simp [zipRows, ih ps ks ds2 ps2 ks2 (by simpa using h1) (by simpa using h2)]

theorem zipRows_map_date : ∀ (ds : List String) (ps : List ℚ) (ks : List String),
    ds.length = ps.length → ds.length = ks.length →
    (zipRows ds ps ks).map (fun r => r.date) = ds := by
  intro ds
  induction ds with
  | nil => intro ps ks _ _; simp [zipRows_nil_left]
  | cons d ds ih =>
    intro ps ks h1 h2
    cases ps with
    | nil => simp at h1
    | cons p ps =>
      cases ks with
      | nil => simp at h2
      | cons k ks =>
        simp [zipRows, ih ps ks (by simpa using h1) (by simpa using h2)]

theorem zipRows_map_kind : ∀ (ds : List String) (ps : List ℚ) (ks : List String),
    ds.length = ps.length → ds.length = ks.length →
    (zipRows ds ps ks).map (fun r => r.kind) = ks := by
  intro ds
  induction ds with
  | nil =>
    intro ps ks _ h2
    cases ks with
    | nil => simp [zipRows_nil_left]
    | cons k ks => simp at h2
  | cons d ds ih =>
    intro ps ks h1 h2
    cases ps with
    | nil => simp at h1
    | cons p ps =>
      cases ks with
      | nil => simp at h2
      | cons k ks =>
        simp [zipRows, ih ps ks (by simpa using h1) (by simpa using h2)]

theorem zipRows_map_actual : ∀ (ds : List String) (ps : List ℚ) (ks : List String),
    ds.length = ps.length → ds.length = ks.length →
    (zipRows ds ps ks).map (fun r => r.actual)
      = List.replicate ds.length none := by
  intro ds
  induction ds with
  | nil => intro ps ks _ _; simp [zipRows_nil_left]
  | cons d ds ih =>
    intro ps ks h1 h2
    cases ps with
    | nil => simp at h1
    | cons p ps =>
      cases ks with
      | nil => simp at h2
      | cons k ks =>
        simp [zipRows, List.replicate_succ,
          ih ps ks (by simpa using h1) (by simpa using h2)]

theorem setActuals_append : ∀ (ys : List ℤ) (rs1 rs2 : List ForecastRow),
    ys.length = rs1.length →
    setActuals ys (rs1 ++ rs2) = setActuals ys rs1 ++ rs2 := by
  intro ys
  induction ys with
  | nil => intro rs1 rs2 h; simp [setActuals]
  | cons y ys ih =>
    intro rs1 rs2 h
    cases rs1 with
    | nil => simp at h
    | cons r rs => simp [setActuals, ih rs rs2 (by simpa using h)]

theorem setActuals_length : ∀ (ys : List ℤ) (rs : List ForecastRow),
    (setActuals ys rs).length = rs.length := by
  intro ys
  induction ys with
  | nil => intro rs; simp [setActuals]
  | cons y ys ih =>
    intro rs
    cases rs with
    | nil => simp [setActuals]
    | cons r rs => simp [setActuals, ih rs]

theorem setActuals_map_date : ∀ (ys : List ℤ) (rs : List ForecastRow),
    (setActuals ys rs).map (fun r => r.date) = rs.map (fun r => r.date) := by
  intro ys
  induction ys with
  | nil => intro rs; simp [setActuals]
  | cons y ys ih =>
    intro rs
    cases rs with
    | nil => simp [setActuals]
    | cons r rs => simp [setActuals, ih rs]

theorem setActuals_map_kind : ∀ (ys : List ℤ) (rs : List ForecastRow),
    (setActuals ys rs).map (fun r => r.kind) = rs.map (fun r => r.kind) := by
  intro ys
  induction ys with
  | nil => intro rs; simp [setActuals]
  | cons y ys ih =>
    intro rs
    cases rs with
    | nil => simp [setActuals]
    | cons r rs => simp [setActuals, ih rs]

theorem setActuals_map_actual_full : ∀ (ys : List ℤ) (rs : List ForecastRow),
    ys.length = rs.length →
    (setActuals ys rs).map (fun r => r.actual) = ys.map some := by
  intro ys
  induction ys with
  | nil =>
    intro rs h
    cases rs with
    | nil => simp [setActuals]
    | cons r rs => simp at h
  | cons y ys ih =>
    intro rs h
    cases rs with
    | nil => simp at h
    | cons r rs => simp [setActuals, ih rs (by simpa using h)]

theorem forecastDateLabels_length (last : Date) (periods : ℕ) :
    (forecastDateLabels last periods).length = periods := by
  simp [forecastDateLabels]

/-- Structure of the assembled forecast frame: with column lengths as the
strategies produce them, the frame splits into a historical prefix of
length `n = ys.length` and a forecast suffix of length `periods`; the
prefix carries the historical labels, `历史` flags and the actual values,
the suffix the forecast labels, `预测` flags and no actual values. -/
theorem assembleForecast_spec (labels : List String) (histPred : List ℚ)
    (futLabels : List String) (futPred : List ℚ) (ys : List ℤ) (periods : ℕ)
    (h1 : labels.length = ys.length) (h2 : histPred.length = ys.length)
    (h3 : futLabels.length = periods) (h4 : futPred.length = periods) :
    (assembleForecast labels histPred futLabels futPred ys periods).length
        = ys.length + periods ∧
    (assembleForecast labels histPred futLabels futPred ys periods).take ys.length
        = setActuals ys (zipRows labels histPred (List.replicate ys.length "历史")) ∧
    (assembleForecast labels histPred futLabels futPred ys periods).drop ys.length
        = zipRows futLabels futPred (List.replicate periods "预测") := by
  have hz1len : (zipRows labels histPred (List.replicate ys.length "历史")).length
      = ys.length := by
    rw [zipRows_length labels histPred _ (h1.trans h2.symm) (by simp [h1]), h1]
  have hsplit : assembleForecast labels histPred futLabels futPred ys periods
      = setActuals ys (zipRows labels histPred (List.replicate ys.length "历史"))
        ++ zipRows futLabels futPred (List.replicate periods "预测") := by
    rw [assembleForecast,
      zipRows_append labels histPred _ futLabels futPred _
        (h1.trans h2.symm) (by simp [h1]),
      setActuals_append _ _ _ (by rw [hz1len])]
  have hslen : (setActuals ys
      (zipRows labels histPred (List.replicate ys.length "历史"))).length
      = ys.length := by rw [setActuals_length, hz1len]
  have hz2len : (zipRows futLabels futPred (List.replicate periods "预测")).length
      = periods := by
    rw [zipRows_length futLabels futPred _ (h3.trans h4.symm) (by simp [h3]), h3]
  refine ⟨?_, ?_, ?_⟩
  · rw [hsplit, List.length_append, hslen, hz2len]
  · rw [hsplit]
    have := List.take_left
      (setActuals ys (zipRows labels histPred (List.replicate ys.length "历史")))
      (zipRows futLabels futPred (List.replicate periods "预测"))
    rw [hslen] at this
    exact this
  · rw [hsplit]
    have := List.drop_left
      (setActuals ys (zipRows labels histPred (List.replicate ys.length "历史")))
      (zipRows futLabels futPred (List.replicate periods "预测"))
    rw [hslen] at this
    exact this

/-- Full set of observable facts about the assembled frame. -/
theorem assembleForecast_facts (labels : List String) (histPred : List ℚ)
    (futLabels : List String) (futPred : List ℚ) (ys : List ℤ) (periods : ℕ)
    (h1 : labels.length = ys.length) (h2 : histPred.length = ys.length)
    (h3 : futLabels.length = periods) (h4 : futPred.length = periods) :
    (assembleForecast labels histPred futLabels futPred ys periods).length
        = ys.length + periods ∧
    ((assembleForecast labels histPred futLabels futPred ys periods).take
        ys.length).map (fun r => r.kind) = List.replicate ys.length "历史" ∧
    ((assembleForecast labels histPred futLabels futPred ys periods).take
        ys.length).map (fun r => r.actual) = ys.map some ∧
    ((assembleForecast labels histPred futLabels futPred ys periods).take
        ys.length).map (fun r => r.date) = labels ∧
    ((assembleForecast labels histPred futLabels futPred ys periods).drop
        ys.length).map (fun r => r.kind) = List.replicate periods "预测" ∧
    ((assembleForecast labels histPred futLabels futPred ys periods).drop
        ys.length).map (fun r => r.actual) = List.replicate periods none ∧
    ((assembleForecast labels histPred futLabels futPred ys periods).drop
        ys.length).map (fun r => r.date) = futLabels := by
  obtain ⟨hlen, htake, hdrop⟩ :=
    assembleForecast_spec labels histPred futLabels futPred ys periods h1 h2 h3 h4
  have hr1 : labels.length = (List.replicate ys.length "历史").length := by
    simp [h1]
  have hz1len : (zipRows labels histPred (List.replicate ys.length "历史")).length
      = ys.length := by
    rw [zipRows_length labels histPred _ (h1.trans h2.symm) hr1, h1]
  have hr2 : futLabels.length = (List.replicate periods "预测").length := by
    simp [h3]
  refine ⟨hlen, ?_, ?_, ?_, ?_, ?_, ?_⟩
  · rw [htake, setActuals_map_kind,
      zipRows_map_kind labels histPred _ (h1.trans h2.symm) hr1]
  · rw [htake, setActuals_map_actual_full ys _ hz1len.symm]
  · rw [htake, setActuals_map_date,
      zipRows_map_date labels histPred _ (h1.trans h2.symm) hr1]
  · rw [hdrop, zipRows_map_kind futLabels futPred _ (h3.trans h4.symm) hr2]
  · rw [hdrop, zipRows_map_actual futLabels futPred _ (h3.trans h4.symm) hr2, h3]
  · rw [hdrop, zipRows_map_date futLabels futPred _ (h3.trans h4.symm) hr2]

theorem seriesLabels_length (sd : List (String × ℤ)) :
    (seriesLabels sd).length = (seriesVals sd).length := by
  simp [seriesLabels, seriesVals]

theorem linHistPred_length (sd : List (String × ℤ)) :
    (linHistPred sd).length = (seriesVals sd).length := by
  rw [linHistPred, List.length_map, List.length_range]

theorem linFutPred_length (sd : List (String × ℤ)) (periods : ℕ) :
    (linFutPred sd periods).length = periods := by
  rw [linFutPred, List.length_map, List.length_range']

/-- All frame facts for the linear strategy. -/
theorem predictLinear_facts (sd : List (String × ℤ)) (periods : ℕ) :
    (predictWithLinearRegression sd periods).length
        = (seriesVals sd).length + periods ∧
    ((predictWithLinearRegression sd periods).take
        (seriesVals sd).length).map (fun r => r.kind)
      = List.replicate (seriesVals sd).length "历史" ∧
    ((predictWithLinearRegression sd periods).take
        (seriesVals sd).length).map (fun r => r.actual)
      = (seriesVals sd).map some ∧
    ((predictWithLinearRegression sd periods).take
        (seriesVals sd).length).map (fun r => r.date) = seriesLabels sd ∧
    ((predictWithLinearRegression sd periods).drop
        (seriesVals sd).length).map (fun r => r.kind)
      = List.replicate periods "预测" ∧
    ((predictWithLinearRegression sd periods).drop
        (seriesVals sd).length).map (fun r => r.actual)
      = List.replicate periods none ∧
    ((predictWithLinearRegression sd periods).drop
        (seriesVals sd).length).map (fun r => r.date)
      = forecastDateLabels (lastLabelDate sd) periods :=
  assembleForecast_facts (seriesLabels sd) (linHistPred sd)
    (forecastDateLabels (lastLabelDate sd) periods) (linFutPred sd periods)
    (seriesVals sd) periods (seriesLabels_length sd) (linHistPred_length sd)
    (forecastDateLabels_length _ _) (linFutPred_length sd periods)

/-- All frame facts for the exponential-smoothing strategy, under the
statsmodels length contract (one fitted value per observation,
`periods` forecast values). -/
theorem predictExp_facts (fitted forecast : List ℚ) (sd : List (String × ℤ))
    (periods : ℕ) (hf : fitted.length = (seriesVals sd).length)
    (hc : forecast.length = periods) :
    (predictWithExpSmoothing fitted forecast sd periods).length
        = (seriesVals sd).length + periods ∧
    ((predictWithExpSmoothing fitted forecast sd periods).take
        (seriesVals sd).length).map (fun r => r.kind)
      = List.replicate (seriesVals sd).length "历史" ∧
    ((predictWithExpSmoothing fitted forecast sd periods).take
        (seriesVals sd).length).map (fun r => r.actual)
      = (seriesVals sd).map some ∧
    ((predictWithExpSmoothing fitted forecast sd periods).take
        (seriesVals sd).length).map (fun r => r.date) = seriesLabels sd ∧
    ((predictWithExpSmoothing fitted forecast sd periods).drop
        (seriesVals sd).length).map (fun r => r.kind)
      = List.replicate periods "预测" ∧
    ((predictWithExpSmoothing fitted forecast sd periods).drop
        (seriesVals sd).length).map (fun r => r.actual)
      = List.replicate periods none ∧
    ((predictWithExpSmoothing fitted forecast sd periods).drop
        (seriesVals sd).length).map (fun r => r.date)
      = forecastDateLabels (lastLabelDate sd) periods :=
  assembleForecast_facts (seriesLabels sd) fitted
    (forecastDateLabels (lastLabelDate sd) periods) forecast
    (seriesVals sd) periods (seriesLabels_length sd) hf
    (forecastDateLabels_length _ _) hc

/-! ### Forecast shape for a 24-point monthly series (C1) -/

/-- C1: on a 24-point monthly aggregated series with `periods = 6`, both
the linear and the exponential-smoothing strategies return exactly 30
rows: the first 24 are marked 历史 and carry the original actual values,
the last 6 are marked 预测 and carry no actual value.  (`fitted` and
`forecast` are the Holt-Winters optimizer outputs, which statsmodels
returns with one fitted value per observation and `periods` forecast
values.) -/
theorem forecast_24_6_shape (sd : List (String × ℤ)) (fitted forecast : List ℚ)
    (h24 : sd.length = 24) (hf : fitted.length = 24) (hc : forecast.length = 6) :
    (predictWithLinearRegression sd 6).length = 30 ∧
    ((predictWithLinearRegression sd 6).take 24).map (fun r => r.kind)
      = List.replicate 24 "历史" ∧
    ((predictWithLinearRegression sd 6).take 24).map (fun r => r.actual)
      = (seriesVals sd).map some ∧
    ((predictWithLinearRegression sd 6).drop 24).map (fun r => r.kind)
      = List.replicate 6 "预测" ∧
    ((predictWithLinearRegression sd 6).drop 24).map (fun r => r.actual)
      = List.replicate 6 none ∧
    (predictWithExpSmoothing fitted forecast sd 6).length = 30 ∧
    ((predictWithExpSmoothing fitted forecast sd 6).take 24).map (fun r => r.kind)
      = List.replicate 24 "历史" ∧
    ((predictWithExpSmoothing fitted forecast sd 6).take 24).map (fun r => r.actual)
      = (seriesVals sd).map some ∧
    ((predictWithExpSmoothing fitted forecast sd 6).drop 24).map (fun r => r.kind)
      = List.replicate 6 "预测" ∧
    ((predictWithExpSmoothing fitted forecast sd 6).drop 24).map (fun r => r.actual)
      = List.replicate 6 none := by
  have hv : (seriesVals sd).length = 24 := by simp [seriesVals, h24]
  obtain ⟨l1, l2, l3, _, l5, l6, _⟩ := predictLinear_facts sd 6
  obtain ⟨e1, e2, e3, _, e5, e6, _⟩ :=
    predictExp_facts fitted forecast sd 6 (by rw [hf, hv]) hc
  rw [hv] at l1 l2 l3 l5 l6 e1 e2 e3 e5 e6
  exact ⟨l1, l2, l3, l5, l6, e1, e2, e3, e5, e6⟩

/-- Witness for C1 at a concrete 24-point series. -/
theorem forecast_24_6_shape_witness :
    (demoSeries24.length = 24 ∧ (List.replicate 24 (0 : ℚ)).length = 24 ∧
      (List.replicate 6 (0 : ℚ)).length = 6) ∧
    ((predictWithLinearRegression demoSeries24 6).length = 30 ∧
     ((predictWithLinearRegression demoSeries24 6).take 24).map (fun r => r.kind)
       = List.replicate 24 "历史" ∧
     ((predictWithLinearRegression demoSeries24 6).take 24).map (fun r => r.actual)
       = (seriesVals demoSeries24).map some ∧
     ((predictWithLinearRegression demoSeries24 6).drop 24).map (fun r => r.kind)
       = List.replicate 6 "预测" ∧
     ((predictWithLinearRegression demoSeries24 6).drop 24).map (fun r => r.actual)
       = List.replicate 6 none ∧
     (predictWithExpSmoothing (List.replicate 24 (0 : ℚ)) (List.replicate 6 (0 : ℚ))
        demoSeries24 6).length = 30 ∧
     ((predictWithExpSmoothing (List.replicate 24 (0 : ℚ)) (List.replicate 6 (0 : ℚ))
        demoSeries24 6).take 24).map (fun r => r.kind) = List.replicate 24 "历史" ∧
     ((predictWithExpSmoothing (List.replicate 24 (0 : ℚ)) (List.replicate 6 (0 : ℚ))
        demoSeries24 6).take 24).map (fun r => r.actual)
       = (seriesVals demoSeries24).map some ∧
     ((predictWithExpSmoothing (List.replicate 24 (0 : ℚ)) (List.replicate 6 (0 : ℚ))
        demoSeries24 6).drop 24).map (fun r => r.kind) = List.replicate 6 "预测" ∧
     ((predictWithExpSmoothing (List.replicate 24 (0 : ℚ)) (List.replicate 6 (0 : ℚ))
        demoSeries24 6).drop 24).map (fun r => r.actual) = List.replicate 6 none) :=
  ⟨⟨by decide, by decide, by decide⟩,
    forecast_24_6_shape demoSeries24 (List.replicate 24 0) (List.replicate 6 0)
      (by decide) (by decide) (by decide)⟩

/-! ### Periods validation in predict_sales (C5) -/

/-- C5 counterexample: values of `periods` outside [1,24] are accepted
by `predict_sales` with the linear strategy and raise no error of any
kind: `periods = 25` on a table whose monthly aggregation has 26
buckets (25 < 26, so the result-frame write's slice bound is a unique
index label and the source call succeeds end to end), and `periods = 0`
on the three-row table (an empty forecast suffix leaves the frame index
unique).  No range error is raised at either input. -/
theorem predict_sales_out_of_range_accepted :
    isOk (predictSales (fun _ _ _ => []) false [] [] (some demoRows26)
        "月" none 25 "linear") = true ∧
    isOk (predictSales (fun _ _ _ => []) false [] [] (some demoRows)
        "月" none 0 "linear") = true :=
  ⟨rfl, rfl⟩

/-- C5 amended: `predict_sales` itself performs no bounds check on
`periods` — the [1,24] bound is enforced only by the surrounding UI's
spin box — so out-of-range values pass straight through to the chosen
strategy.  Whenever `periods` is below the aggregated series' length
(the regime in which the result-frame label-slice write is well defined,
see `setActuals`; since the series is never empty this includes
`periods = 0`), the linear-strategy call is accepted with no range
error and returns series-length + `periods` rows.  (For
`periods ≥ series length` the source call does fail, but inside the
frame assembly with a pandas `KeyError` on the duplicated slice bound —
still not the spec's range error; that error path is outside this
model.) -/
theorem predict_sales_no_periods_validation
    (pf : List (String × ℤ) → ℕ → String → List ForecastRow) (pa : Bool)
    (f fc : List ℚ) (rows : List Row) (cat : Option String) (periods : ℕ)
    (sd : List (String × ℤ)) (h : salesByTime (some rows) "月" cat = .ok sd)
    (hp : periods < sd.length) :
    predictSales pf pa f fc (some rows) "月" cat periods "linear"
      = .ok (predictWithLinearRegression sd periods) ∧
    (predictWithLinearRegression sd periods).length = sd.length + periods := by
  have hne := (salesByTime_ok_shape rows "月" cat sd h).2
  constructor
  · simp only [predictSales, h]
    simp [hne]
  · obtain ⟨l1, _⟩ := predictLinear_facts sd periods
    rw [l1, seriesVals, List.length_map]

/-- Witness for the amended C5: `periods = 25` (outside [1,24]) on the
26-bucket table, inside the faithful `periods < series length` regime. -/
theorem predict_sales_no_periods_validation_witness :
    (salesByTime (some demoRows26) "月" none = .ok demoSd26 ∧
      25 < demoSd26.length) ∧
    (predictSales (fun _ _ _ => []) false [] [] (some demoRows26) "月" none
        25 "linear" = .ok (predictWithLinearRegression demoSd26 25) ∧
      (predictWithLinearRegression demoSd26 25).length = demoSd26.length + 25) :=
  ⟨⟨by rfl, by decide⟩,
    predict_sales_no_periods_validation (fun _ _ _ => []) false [] []
      demoRows26 none 25 demoSd26 (by rfl) (by decide)⟩

/-! ### Monthly stepping of forecast labels (C10) -/

/-- C10: both local strategies generate the appended forecast-row date
labels by stepping at monthly frequency (formatted year-month) from the
series' parsed last label, whatever the granularity of the input series
(daily, monthly or quarterly label shapes alike): the appended labels
are exactly `forecastDateLabels`, whose i-th element is the last
label's month advanced by i+1 months. -/
theorem forecast_labels_monthly (sd : List (String × ℤ))
    (fitted forecast : List ℚ) (periods : ℕ)
    (hf : fitted.length = (seriesVals sd).length)
    (hc : forecast.length = periods) :
    ((predictWithLinearRegression sd periods).drop (seriesVals sd).length).map
        (fun r => r.date)
      = forecastDateLabels (lastLabelDate sd) periods ∧
    ((predictWithExpSmoothing fitted forecast sd periods).drop
        (seriesVals sd).length).map (fun r => r.date)
      = forecastDateLabels (lastLabelDate sd) periods ∧
    (∀ last : Date, ∀ i, i < periods →
      (forecastDateLabels last periods)[i]?
        = some (fmtYM (monthAdd last.y last.m (i + 1)))) := by
  obtain ⟨_, _, _, _, _, _, l7⟩ := predictLinear_facts sd periods
  obtain ⟨_, _, _, _, _, _, e7⟩ := predictExp_facts fitted forecast sd periods hf hc
  refine ⟨l7, e7, ?_⟩
  intro last i hi
  rw [forecastDateLabels, List.getElem?_drop, List.getElem?_map,
    List.getElem?_range (by omega), Option.map_some', Nat.add_comm]

/-- Witness for C10: a quarterly-labeled series still yields
month-stepped forecast labels (instantiated at `periods = 1`, inside
the faithful slice regime of the 2-point series). -/
theorem forecast_labels_monthly_witness :
    ((List.replicate 2 (0 : ℚ)).length = (seriesVals demoSeriesQ).length ∧
      (List.replicate 1 (0 : ℚ)).length = 1) ∧
    (((predictWithLinearRegression demoSeriesQ 1).drop
        (seriesVals demoSeriesQ).length).map (fun r => r.date)
      = forecastDateLabels (lastLabelDate demoSeriesQ) 1 ∧
    ((predictWithExpSmoothing (List.replicate 2 0) (List.replicate 1 0)
        demoSeriesQ 1).drop (seriesVals demoSeriesQ).length).map (fun r => r.date)
      = forecastDateLabels (lastLabelDate demoSeriesQ) 1 ∧
    (∀ last : Date, ∀ i, i < 1 →
      (forecastDateLabels last 1)[i]?
        = some (fmtYM (monthAdd last.y last.m (i + 1))))) :=
  ⟨⟨by decide, by decide⟩,
    forecast_labels_monthly demoSeriesQ (List.replicate 2 0) (List.replicate 1 0) 1
      (by decide) (by decide)⟩

/-! ### Ranking tie order (C8) -/

theorem charsLe_refl : ∀ as, charsLe as as = true := by
  intro as
  induction as with
  | nil => rfl
  | cons a as ih => simp [charsLe, ih]

theorem charsLe_total : ∀ as bs, charsLe as bs = true ∨ charsLe bs as = true := by
  intro as
  induction as with
  | nil => intro bs; left; rfl
  | cons a as ih =>
    intro bs
    cases bs with
    | nil => right; rfl
    | cons b bs =>
      by_cases h1 : a.toNat < b.toNat
      · left; simp [charsLe, h1]
      · by_cases h2 : b.toNat < a.toNat
        · right; simp [charsLe, h2]
        · rcases ih bs with h | h
          · left; simp [charsLe, h1, h2, h]
          · right; simp [charsLe, h1, h2, h]

theorem charsLe_cons_iff (a b : Char) (as bs : List Char) :
    charsLe (a :: as) (b :: bs) = true ↔
      a.toNat < b.toNat ∨ (a.toNat = b.toNat ∧ charsLe as bs = true) := by
  simp only [charsLe]
  split_ifs with h1 h2
  · simp [h1]
  · simp only [Bool.false_eq_true, false_iff]
    rintro (h | ⟨he, _⟩) <;> omega
  · have he : a.toNat = b.toNat := by omega
    simp [he, h1]

theorem charsLe_trans : ∀ as bs cs, charsLe as bs = true → charsLe bs cs = true →
    charsLe as cs = true := by
  intro as
  induction as with
  | nil => intro bs cs _ _; rfl
  | cons a as ih =>
    intro bs cs h1 h2
    cases bs with
    | nil => simp [charsLe] at h1
    | cons b bs =>
      cases cs with
      | nil => simp [charsLe] at h2
      | cons c cs =>
        rw [charsLe_cons_iff] at h1 h2 ⊢
        rcases h1 with h1 | ⟨he1, hr1⟩
        · rcases h2 with h2 | ⟨he2, _⟩
          · left; omega
          · left; omega
        · rcases h2 with h2 | ⟨he2, hr2⟩
          · left; omega
          · right; exact ⟨by omega, ih bs cs hr1 hr2⟩

theorem strLe_total (s t : String) : strLe s t = true ∨ strLe t s = true :=
  charsLe_total s.data t.data

theorem strLe_trans (s t u : String) (h1 : strLe s t = true)
    (h2 : strLe t u = true) : strLe s u = true :=
  charsLe_trans s.data t.data u.data h1 h2

theorem mem_insertLe (le : α → α → Bool) (x a : α) (l : List α) :
    a ∈ insertLe le x l ↔ a = x ∨ a ∈ l := by
  rw [(perm_insertLe le x l).mem_iff]
  simp

/-- Inserting a fresh element into a strictly sorted list (w.r.t. a total
transitive boolean order) keeps it strictly sorted. -/
theorem pairwise_insertLe (le : α → α → Bool)
    (htot : ∀ a b, le a b = true ∨ le b a = true)
    (htrans : ∀ a b c, le a b = true → le b c = true → le a c = true)
    (x : α) (l : List α) (hx : x ∉ l)
    (hl : l.Pairwise (fun a b => le a b = true ∧ a ≠ b)) :
    (insertLe le x l).Pairwise (fun a b => le a b = true ∧ a ≠ b) := by
  induction l with
  | nil => simp [insertLe]
  | cons y ys ih =>
    rcases List.pairwise_cons.mp hl with ⟨hy, hys⟩
    by_cases hxy : le x y = true
    · rw [insertLe, if_pos hxy]
      refine List.pairwise_cons.mpr ⟨?_, List.pairwise_cons.mpr ⟨hy, hys⟩⟩
      intro a ha
      rcases List.mem_cons.mp ha with rfl | ha'
      · refine ⟨hxy, ?_⟩
        rintro rfl
        exact hx (List.mem_cons_self _ _)
      · refine ⟨htrans x y a hxy (hy a ha').1, ?_⟩
        rintro rfl
        exact hx (List.mem_cons_of_mem _ ha')
    · rw [insertLe, if_neg hxy]
      refine List.pairwise_cons.mpr
        ⟨?_, ih (fun hm => hx (List.mem_cons_of_mem _ hm)) hys⟩
      intro a ha
      rcases (mem_insertLe le x a ys).mp ha with rfl | ha'
      · rcases htot a y with h | h
        · exact absurd h hxy
        · refine ⟨h, ?_⟩
          rintro rfl
          exact hx (List.mem_cons_self _ _)
      · exact hy a ha'

/-- The insertion sort of a duplicate-free list is strictly sorted. -/
theorem pairwise_sortAsc (le : α → α → Bool)
    (htot : ∀ a b, le a b = true ∨ le b a = true)
    (htrans : ∀ a b c, le a b = true → le b c = true → le a c = true)
    (l : List α) (hnd : l.Nodup) :
    (sortAsc le l).Pairwise (fun a b => le a b = true ∧ a ≠ b) := by
  induction l with
  | nil => simp [sortAsc]
  | cons a t ih =>
    rcases List.nodup_cons.mp hnd with ⟨ha, ht⟩
    exact pairwise_insertLe le htot htrans a (sortAsc le t)
      (fun hm => ha ((mem_sortAsc le t a).mp hm)) (ih ht)

/-- The grouped product table comes out strictly sorted by product name. -/
theorem productSums_pairwise (v : Row → ℤ) (rows : List Row) :
    (productSums v rows).Pairwise nameLt := by
  rw [productSums, List.pairwise_map]
  have h := pairwise_sortAsc strLe strLe_total strLe_trans
    ((rows.map (fun r => r.productName)).dedup) (List.nodup_dedup _)
  rw [groupKeys]
  exact h.imp (fun hab => hab)

/-- Stability of the ascending value argsort: inserting an element that
is name-below every tie keeps the value-ascending/tie-name order. -/
theorem pairwise_insertVal (x : ProductAgg) (l : List ProductAgg)
    (hl : l.Pairwise rankRel)
    (hx : ∀ y ∈ l, x.value = y.value → nameLt x y) :
    (insertLe valLe x l).Pairwise rankRel := by
  induction l with
  | nil => simp [insertLe]
  | cons y ys ih =>
    rcases List.pairwise_cons.mp hl with ⟨hy, hys⟩
    by_cases hxy : valLe x y = true
    · rw [insertLe, if_pos hxy]
      have hxyle : x.value ≤ y.value := of_decide_eq_true hxy
      refine List.pairwise_cons.mpr ⟨?_, List.pairwise_cons.mpr ⟨hy, hys⟩⟩
      intro a ha
      rcases List.mem_cons.mp ha with rfl | ha'
      · rcases lt_or_eq_of_le hxyle with hlt | heq
        · exact Or.inl hlt
        · exact Or.inr ⟨heq, hx a (List.mem_cons_self _ _) heq⟩
      · have hya : y.value ≤ a.value := by
          rcases hy a ha' with hlt | ⟨heq, _⟩
          · exact le_of_lt hlt
          · exact le_of_eq heq
        have hxa : x.value ≤ a.value := le_trans hxyle hya
        rcases lt_or_eq_of_le hxa with hlt | heq
        · exact Or.inl hlt
        · exact Or.inr ⟨heq, hx a (List.mem_cons_of_mem _ ha') heq⟩
    · rw [insertLe, if_neg hxy]
      have hyx : y.value < x.value := by
        by_contra hcon
        apply hxy
        rw [valLe]
        exact decide_eq_true (by omega)
      refine List.pairwise_cons.mpr
        ⟨?_, ih hys (fun a ha => hx a (List.mem_cons_of_mem _ ha))⟩
      intro a ha
      rcases (mem_insertLe valLe x a ys).mp ha with rfl | ha'
      · exact Or.inl hyx
      · exact hy a ha'

/-- The ascending value argsort of the name-sorted group table is
ordered by value with ties in ascending name order. -/
theorem pairwise_sortVal (l : List ProductAgg) (hl : l.Pairwise nameLt) :
    (sortAsc valLe l).Pairwise rankRel := by
  induction l with
  | nil => simp [sortAsc]
  | cons a t ih =>
    rcases List.pairwise_cons.mp hl with ⟨ha, ht⟩
    exact pairwise_insertVal a (sortAsc valLe t)
      (ih ht)
      (fun y hy _ => ha y ((mem_sortAsc valLe t y).mp hy))

/-- After the descending reversal and `head(n)`, equal-valued entries
appear in descending product-name order. -/
theorem rankDesc_take_ties (v : Row → ℤ) (data : List Row) (n : ℕ) :
    ((rankDesc (productSums v data)).take n).Pairwise
      (fun a b => a.value = b.value → nameLt b a) := by
  have h1 := pairwise_sortVal (productSums v data) (productSums_pairwise v data)
  have h2 : (rankDesc (productSums v data)).Pairwise
      (fun a b => a.value = b.value → nameLt b a) := by
    rw [rankDesc, List.pairwise_reverse]
    refine h1.imp ?_
    intro a b hab heq
    rcases hab with hlt | ⟨heq', hn⟩
    · rw [heq] at hlt
      exact absurd hlt (lt_irrefl _)
    · exact hn
  exact h2.sublist (List.take_sublist n _)

/-- C8 counterexample: two products with equal revenue, `"a"` first in
input order; the top-2 ranking returns `"b"` before `"a"`, so the tie is
not broken by input order. -/
theorem top_products_tie_counterexample :
    (tieRows.map (fun r => r.productName) = ["a", "b"]) ∧
    getTopProducts (some tieRows) 2 "销售额" none
      = .ok (some [⟨"b", 10⟩, ⟨"a", 10⟩]) :=
  ⟨by decide, by rfl⟩

/-- C8 amended: in a `get_top_products` ranking, ties between products
with equal measure values are broken by *descending product name*, not
by input order: grouping sorts products by name ascending, and the
descending ranking reverses a stable ascending argsort (stable in the
modeled insertion-sort regime of numpy's default sort), which reverses
the name order of ties. -/
theorem top_products_ties_name_desc (df : Option (List Row)) (n : ℕ)
    (measure : String) (category : Option String) (out : List ProductAgg)
    (h : getTopProducts df n measure category = .ok (some out)) :
    out.Pairwise (fun a b => a.value = b.value → nameLt b a) := by
  rcases df with _ | rows
  · simp [getTopProducts] at h
  · simp only [getTopProducts] at h
    split_ifs at h <;> cases h <;> apply rankDesc_take_ties

/-- Witness for the amended C8 at the concrete tied table. -/
theorem top_products_ties_name_desc_witness :
    (getTopProducts (some tieRows) 2 "销售额" none
      = .ok (some [⟨"b", 10⟩, ⟨"a", 10⟩])) ∧
    ([(⟨"b", 10⟩ : ProductAgg), ⟨"a", 10⟩].Pairwise
      (fun a b => a.value = b.value → nameLt b a)) :=
  ⟨by rfl,
    top_products_ties_name_desc (some tieRows) 2 "销售额" none
      [⟨"b", 10⟩, ⟨"a", 10⟩] (by rfl)⟩

/-! ### Purity of segmentation labels (C3) -/

/-- C3: cluster labels are a pure deterministic function of the
per-cluster mean feature table.  First conjunct: the source's labeling
rule coincides, on every mean table and row, with the rule as the spec
states it (stem by mean spend and mean order count versus the medians of
the cluster means, active/at-risk prefix by mean recency versus the
median of cluster-mean recencies).  Second conjunct: running the
segmentation twice on the same table with the same seed (the same
opaque, deterministic scaler+KMeans function) yields identical output.
Third conjunct: every label in the per-customer output table is the
lookup of that row's cluster id in `labelLookup`, a function only of the
per-cluster mean table and the cluster count. -/
theorem segmentation_labels_pure :
    (∀ cfs row, segmentLabel cfs row = specSegmentLabel cfs row) ∧
    (∀ cluster df k,
      getCustomerSegments cluster df k = getCustomerSegments cluster df k) ∧
    (∀ cluster df k cd cfs,
      getCustomerSegments cluster df k = .ok (some (cd, cfs)) →
      ∀ r ∈ cd, r.segLabel = labelLookup cfs k r.cluster) := by
  refine ⟨?_, fun _ _ _ => rfl, ?_⟩
  · intro cfs row
    simp only [segmentLabel, specSegmentLabel]
    by_cases h1 : row.totalSpend > median (cfs.map (fun r => r.totalSpend)) <;>
      by_cases h2 : row.orderCount > median (cfs.map (fun r => r.orderCount)) <;>
      simp [h1, h2, not_lt.mp, le_of_not_lt, not_lt.mpr] <;>
      split_ifs <;> rfl
  · intro cluster df k cd cfs h r hr
    rcases df with _ | rows
    · simp [getCustomerSegments] at h
    · simp only [getCustomerSegments] at h
      revert h
      cases hbl : buildLabelTable (clusterMeanTable (assignClusters
          (customerFeatureRows rows)
          (cluster ((customerFeatureRows rows).map featVec) k)))
          (List.range k) with
      | error e =>
        intro h
        simp at h
      | ok tbl =>
        intro h
        simp only [Except.ok.injEq, Option.some.injEq, Prod.mk.injEq] at h
        obtain ⟨hcd, hcfs⟩ := h
        subst hcd
        subst hcfs
        rcases List.mem_map.mp hr with ⟨r0, _, rfl⟩
        simp only [labelLookup, hbl]

end Commerce
